import Mathlib

/-!
Verification development for the ST3215 C++ servo library
(`src/protocol_packet_handler.cpp`, `src/st3215.cpp`, `src/group_sync_write.cpp`,
`include/st3215/values.h`).

Machine integers are embedded as `Nat`/`Int` with explicit `% 2^w` where the
C++ code truncates.  The serial port is embedded as an explicit state: a busy
flag, the scripted byte stream the port will deliver to `readPort`, a script of
write-report counts for `writePort`, and a log of every byte handed to
`writePort`.  Timing is abstracted: deliveries are immediate and
`isPacketTimeout()` reports true exactly when the scripted stream is exhausted
(the deadline elapses once the port has nothing more to deliver).
`clearPort()` (a `tcflush`) is the identity here because the scripted stream
holds only bytes arriving after the flush.  Unbounded `while (true)` loops are
run on explicit fuel.
-/

namespace ST3215

/-! ## Constants from `include/st3215/values.h` -/

def COMM_SUCCESS : Int := 0
def COMM_PORT_BUSY : Int := -1
def COMM_TX_FAIL : Int := -2
def COMM_RX_FAIL : Int := -3
def COMM_TX_ERROR : Int := -4
def COMM_RX_TIMEOUT : Int := -6
def COMM_RX_CORRUPT : Int := -7
def COMM_NOT_AVAILABLE : Int := -9

def TXPACKET_MAX_LEN : Nat := 250
def RXPACKET_MAX_LEN : Nat := 250
def MAX_POSITION : Nat := 4095
def MAX_SPEED : Nat := 3400
def MAX_CORRECTION : Nat := 2047
def BROADCAST_ID : Nat := 254

def INST_PING : Nat := 1
def INST_READ : Nat := 2
def INST_WRITE : Nat := 3

/-! ## Byte helpers (`ProtocolPacketHandler`, with `sts_end_ = 0` as set by the
constructor: little-endian). `x & 0xFF` is `x % 256`, `x >> 8` is `x / 256`. -/

def lobyte (w : Nat) : Nat := w % 256

def hibyte (w : Nat) : Nat := (w / 256) % 256

/-- `makeWord(a, b)` with `sts_end_ = 0`: `(a & 0xFF) | ((b & 0xFF) << 8)`. -/
def makeWord (a b : Nat) : Nat := (a % 256) ||| ((b % 256) <<< 8)

/-! ## The port model -/

structure Port where
  usingFlag : Bool
  /-- Bytes the port will deliver to `readPort`, in order. -/
  stream : List Nat
  /-- Scripted return values for successive `writePort` calls; when the script
  is empty the port reports a full write. -/
  wcounts : List Nat
  /-- Log of every byte handed to `writePort` (the transmitted wire bytes). -/
  wire : List Nat
deriving Repr, DecidableEq

/-- `PortHandler::writePort`: hands the bytes to the device and reports how
many were written (scripted; a full write when the script is exhausted). -/
def writePort (port : Port) (p : List Nat) : Nat × Port :=
  match port.wcounts with
  | [] => (p.length, { port with wire := port.wire ++ p })
  | w :: rest => (w, { port with wcounts := rest, wire := port.wire ++ p })

/-! ## `ProtocolPacketHandler::txPacket` -/

/-- The header/checksum finalization inside `txPacket`: set the two sync bytes
and store `~checksum & 0xFF` in the last slot, where `checksum` is the `uint8_t`
sum of bytes `2 .. total_packet_length - 2`.  For an 8-bit `s`,
`~s & 0xFF = 255 - s`. -/
def finalizePacket (p : List Nat) : List Nat :=
  let total := p.getD 3 0 + 4
  let p1 := (p.set 0 255).set 1 255
  p1.set (total - 1) (255 - (((p1.drop 2).take (total - 3)).sum % 256))

/-- `ProtocolPacketHandler::txPacket`.  Returns
`(comm result, possibly finalized packet, port after)`. -/
def txPacket (port : Port) (p : List Nat) : Int × List Nat × Port :=
  let total := p.getD 3 0 + 4
  if port.usingFlag then (COMM_PORT_BUSY, p, port)
  else
    let port1 : Port := { port with usingFlag := true }
    if TXPACKET_MAX_LEN < total then
      (COMM_TX_ERROR, p, { port1 with usingFlag := false })
    else
      let p1 := finalizePacket p
      let wp := writePort port1 p1
      if wp.1 ≠ total then (COMM_TX_FAIL, p1, { wp.2 with usingFlag := false })
      else (COMM_SUCCESS, p1, wp.2)

/-! ## `ProtocolPacketHandler::rxPacket` -/

/-- The header search loop: first index holding two consecutive `0xFF` bytes;
when the loop falls through, `idx` is left at `rx_length - 1`. -/
def findHeader : List Nat → Nat
  | a :: b :: rest => if a = 255 ∧ b = 255 then 0 else findHeader (b :: rest) + 1
  | _ => 0

structure RxState where
  buf : List Nat
  wait : Nat
  port : Port
  /-- Ghost: total bytes obtained from `readPort` so far. -/
  received : Nat
deriving Repr, DecidableEq

structure RxDone where
  pkt : List Nat
  result : Int
  /-- Ghost: the loop exited through an `isPacketTimeout()` break. -/
  viaTimeout : Bool
  port : Port
  /-- Ghost: total bytes obtained from `readPort`. -/
  received : Nat
deriving Repr, DecidableEq

/-- The read request `wait_length - rx_length` as `size_t`: when
`rx_length > wait_length` the subtraction wraps to a huge count, so the port
delivers everything it has. -/
def rxReq (s : RxState) : Nat :=
  if s.wait < s.buf.length then s.port.stream.length else s.wait - s.buf.length

/-- The `readPort` / append step at the top of the `rxPacket` loop. -/
def rxRead (s : RxState) : RxState :=
  ⟨s.buf ++ s.port.stream.take (rxReq s), s.wait,
   { s.port with stream := s.port.stream.drop (rxReq s) },
   s.received + (s.port.stream.take (rxReq s)).length⟩

/-- The body of the `rxPacket` loop after the read: header search, header
validation, exact-length recomputation, timeout checks, checksum check. -/
def rxProcess (t : RxState) : RxState ⊕ RxDone :=
  if t.wait ≤ t.buf.length then
    if findHeader t.buf = 0 then
      if 0xFD < t.buf.getD 2 0 ∨ RXPACKET_MAX_LEN < t.buf.getD 3 0 ∨
          0x7F < t.buf.getD 4 0 then
        Sum.inl ⟨t.buf.drop 1, t.wait, t.port, t.received⟩
      else if t.wait ≠ t.buf.getD 3 0 + 4 then
        Sum.inl ⟨t.buf, t.buf.getD 3 0 + 4, t.port, t.received⟩
      else if t.buf.length < t.wait then
        if t.port.stream.isEmpty then
          Sum.inr ⟨t.buf, if t.buf.isEmpty then COMM_RX_TIMEOUT else COMM_RX_CORRUPT,
                   true, t.port, t.received⟩
        else Sum.inl ⟨t.buf, t.wait, t.port, t.received⟩
      else
        Sum.inr ⟨t.buf,
                 if t.buf.getD (t.wait - 1) 0 =
                     255 - (((t.buf.drop 2).take (t.wait - 3)).sum % 256)
                 then COMM_SUCCESS else COMM_RX_CORRUPT,
                 false, t.port, t.received⟩
    else
      Sum.inl ⟨t.buf.drop (findHeader t.buf), t.wait, t.port, t.received⟩
  else
    if t.port.stream.isEmpty then
      Sum.inr ⟨t.buf, if t.buf.isEmpty then COMM_RX_TIMEOUT else COMM_RX_CORRUPT,
               true, t.port, t.received⟩
    else Sum.inl ⟨t.buf, t.wait, t.port, t.received⟩

/-- One iteration of the `while (true)` loop of `rxPacket`. -/
def rxIter (s : RxState) : RxState ⊕ RxDone := rxProcess (rxRead s)

def rxRun : Nat → RxState → Option RxDone
  | 0, _ => none
  | fuel + 1, s =>
    match rxIter s with
    | Sum.inl s1 => rxRun fuel s1
    | Sum.inr d => some d

/-- `ProtocolPacketHandler::rxPacket`: run the loop from an empty buffer with
the minimum envelope length 6, and release the busy flag on exit. -/
def rxPacket (fuel : Nat) (port : Port) : Option RxDone :=
  (rxRun fuel ⟨[], 6, port, 0⟩).map
    (fun d => { d with port := { d.port with usingFlag := false } })

/-! ## `ProtocolPacketHandler::txRxPacket` and callers -/

/-- The reply retry loop of `txRxPacket`: re-invoke `rxPacket` until an error
occurs or a packet carrying the request's ID arrives. -/
def txRxLoop (txp : List Nat) : Nat → Nat → Port → Option (List Nat × Int × Port)
  | 0, _, _ => none
  | n + 1, rxFuel, port =>
    match rxPacket rxFuel port with
    | none => none
    | some d =>
      if d.result ≠ COMM_SUCCESS ∨ (2 < d.pkt.length ∧ txp.getD 2 0 = d.pkt.getD 2 0) then
        some (d.pkt, d.result, d.port)
      else txRxLoop txp n rxFuel d.port

/-- `ProtocolPacketHandler::txRxPacket`.  Returns
`(rxpacket, comm result, error byte, port after)`, or `none` when fuel runs
out. -/
def txRxPacket (oFuel rxFuel : Nat) (port : Port) (p : List Nat) :
    Option (List Nat × Int × Nat × Port) :=
  let t := txPacket port p
  if t.1 ≠ COMM_SUCCESS then some ([], t.1, 0, t.2.2)
  else if t.2.1.getD 2 0 = BROADCAST_ID then
    some ([], t.1, 0, { t.2.2 with usingFlag := false })
  else
    match txRxLoop t.2.1 oFuel rxFuel t.2.2 with
    | none => none
    | some (rxp, res, port2) =>
      let err := if res = COMM_SUCCESS ∧ 4 < rxp.length ∧ t.2.1.getD 2 0 = rxp.getD 2 0
                 then rxp.getD 4 0 else 0
      some (rxp, res, err, port2)

/-- `ProtocolPacketHandler::readTxRx`. -/
def readTxRx (oFuel rxFuel : Nat) (port : Port) (sts_id address length : Nat) :
    Option (List Nat × Int × Nat × Port) :=
  if BROADCAST_ID ≤ sts_id then some ([], COMM_NOT_AVAILABLE, 0, port)
  else
    match txRxPacket oFuel rxFuel port [0, 0, sts_id, 4, INST_READ, address, length, 0] with
    | none => none
    | some (rxp, result, error, port1) =>
      if result = COMM_SUCCESS ∧ 5 + length ≤ rxp.length then
        some ((rxp.drop 5).take length, result, rxp.getD 4 0, port1)
      else some ([], result, error, port1)

/-- `ProtocolPacketHandler::ping`: a PING exchange followed, on success, by a
READ of the 2-byte model-number register at address 3. -/
def ping (oFuel rxFuel : Nat) (port : Port) (sts_id : Nat) :
    Option (Nat × Int × Nat × Port) :=
  if BROADCAST_ID ≤ sts_id then some (0, COMM_NOT_AVAILABLE, 0, port)
  else
    match txRxPacket oFuel rxFuel port [0, 0, sts_id, 2, INST_PING, 0] with
    | none => none
    | some (_, result, error, port1) =>
      if result = COMM_SUCCESS then
        match readTxRx oFuel rxFuel port1 sts_id 3 2 with
        | none => none
        | some (data, result2, error2, port2) =>
          some (if result2 = COMM_SUCCESS ∧ 2 ≤ data.length
                then makeWord (data.getD 0 0) (data.getD 1 0) else 0,
                result2, error2, port2)
      else some (0, result, error, port1)

/-- `ST3215::pingServo`: false when the comm result is not success, or the
model number is 0, or the device error byte is nonzero. -/
def pingServo (oFuel rxFuel : Nat) (port : Port) (sts_id : Nat) : Option Bool :=
  match ping oFuel rxFuel port sts_id with
  | none => none
  | some (model, comm, error, _) =>
    some (if comm ≠ COMM_SUCCESS ∨ model = 0 ∨ error ≠ 0 then false else true)

/-! ## `GroupSyncWrite` -/

/-- `std::map` lookup hit: `data_dict_.find(sts_id) != data_dict_.end()`. -/
def containsKey (d : List (Nat × List Nat)) (k : Nat) : Bool := d.any (fun e => e.1 = k)

/-- `std::map` insertion of a fresh key keeps the entries ordered by key. -/
def insertSorted (k : Nat) (v : List Nat) : List (Nat × List Nat) → List (Nat × List Nat)
  | [] => [(k, v)]
  | e :: rest => if k < e.1 then (k, v) :: e :: rest else e :: insertSorted k v rest

structure GroupSyncWrite where
  start_address : Nat
  data_length : Nat
  is_param_changed : Bool
  param : List Nat
  data_dict : List (Nat × List Nat)
deriving Repr, DecidableEq

/-- `GroupSyncWrite::addParam`. -/
def addParam (g : GroupSyncWrite) (sts_id : Nat) (data : List Nat) :
    Bool × GroupSyncWrite :=
  if containsKey g.data_dict sts_id then (false, g)
  else if g.data_length < data.length then (false, g)
  else (true, { g with data_dict := insertSorted sts_id data g.data_dict,
                       is_param_changed := true })

/-! ## `ST3215` register-value arithmetic -/

/-- The two payload bytes written by `ST3215::correctPosition`:
`corr = min(|correction|, MAX_CORRECTION)`, low/high bytes, and bit 3 of the
high byte set when the correction is negative. -/
def correctPositionBytes (correction : Int) : Nat × Nat :=
  (lobyte (min correction.natAbs MAX_CORRECTION),
   if correction < 0 then hibyte (min correction.natAbs MAX_CORRECTION) ||| 8
   else hibyte (min correction.natAbs MAX_CORRECTION))

/-- The two payload bytes written by `ST3215::rotate`:
`abs_speed = min(|speed|, MAX_SPEED)`, low/high bytes, and bit 7 of the high
byte set when the speed is negative. -/
def rotateBytes (speed : Int) : Nat × Nat :=
  (lobyte (min speed.natAbs MAX_SPEED),
   if speed < 0 then hibyte (min speed.natAbs MAX_SPEED) ||| 128
   else hibyte (min speed.natAbs MAX_SPEED))

/-- The wait-duration computation inside `ST3215::moveTo` when `wait` is
requested and the current position is known, idealizing `double` arithmetic
over `ℝ`.  Note the triangular branch divides by the raw `acc`, not by the
scaled `acc * 100`. -/
noncomputable def moveToWait (position curr_pos : Nat) (speed : Nat) (acc : Nat) : ℝ :=
  if 0.5 * ((acc : ℝ) * 100) * ((speed : ℝ) / ((acc : ℝ) * 100)) *
        ((speed : ℝ) / ((acc : ℝ) * 100)) ≥
      (((position : Int) - (curr_pos : Int)).natAbs : ℝ) then
    Real.sqrt (2 * (((position : Int) - (curr_pos : Int)).natAbs : ℝ) / (acc : ℝ))
  else
    (speed : ℝ) / ((acc : ℝ) * 100) +
      ((((position : Int) - (curr_pos : Int)).natAbs : ℝ) -
        0.5 * ((acc : ℝ) * 100) * ((speed : ℝ) / ((acc : ℝ) * 100)) *
          ((speed : ℝ) / ((acc : ℝ) * 100))) / (speed : ℝ)

/-- The mid-range distance computed in `ST3215::tareServo` (C++ `int`
arithmetic; `/` truncates toward zero). -/
def tareDistance (min_pos max_pos : Nat) : Int :=
  if max_pos ≤ min_pos then
    ((MAX_POSITION : Int) - (min_pos : Int) + (max_pos : Int)).tdiv 2
  else ((max_pos : Int) - (min_pos : Int)).tdiv 2

/-- The corrective offset computed in `ST3215::tareServo`, including the
conversion of the `int` expression to `int16_t` (two's-complement wrap). -/
def tareCorr (min_pos : Nat) : Int :=
  (((if MAX_POSITION / 2 < min_pos
      then (min_pos : Int) - (MAX_POSITION : Int) - 1
      else (min_pos : Int)) + 32768) % 65536) - 32768

/-- No two consecutive bytes of the list are `0xFF 0xFF`. -/
def pairFree : List Nat → Bool
  | a :: b :: rest => if a = 255 ∧ b = 255 then false else pairFree (b :: rest)
  | _ => true

/-- The invariant carried through the reception loop: the buffer is empty
exactly when nothing was ever received (discards always leave at least one
byte), and the expected length is at least the 4-byte header. -/
def RxInv (s : RxState) : Prop := (s.buf = [] ↔ s.received = 0) ∧ 4 ≤ s.wait

/-! ## Helper lemmas -/

theorem take_set_of_le {α : Type} {l : List α} {i j : Nat} {a : α} (h : j ≤ i) :
    (l.set i a).take j = l.take j := by
  apply List.ext_getElem?
  intro k
  rw [List.getElem?_take, List.getElem?_take]
  split
  · rw [List.getElem?_set]
    have hik : i ≠ k := by omega
    simp [hik]
  · rfl

theorem finalizePacket_length (p : List Nat) : (finalizePacket p).length = p.length := by
  unfold finalizePacket
  simp [List.length_set]

theorem finalizePacket_getD_two (p : List Nat) :
    (finalizePacket p).getD 2 0 = p.getD 2 0 := by
  unfold finalizePacket
  rw [List.getD_eq_getElem?_getD, List.getD_eq_getElem?_getD]
  rw [List.getElem?_set, List.getElem?_set, List.getElem?_set]
  simp

theorem txPacket_success (port : Port) (p : List Nat)
    (hbusy : port.usingFlag = false)
    (hlen : p.length = p.getD 3 0 + 4)
    (hmax : p.getD 3 0 + 4 ≤ TXPACKET_MAX_LEN)
    (hw : port.wcounts = []) :
    txPacket port p = (COMM_SUCCESS, finalizePacket p,
      { port with usingFlag := true, wire := port.wire ++ finalizePacket p }) := by
  unfold txPacket writePort
  rw [if_neg (by simp [hbusy])]
  rw [if_neg (by omega)]
  simp only [hw]
  rw [if_neg (by simp [finalizePacket_length, hlen])]

theorem finalizePacket_header_checksum (p : List Nat)
    (hlen : p.length = p.getD 3 0 + 4) :
    (finalizePacket p).getD 0 0 = 255 ∧
    (finalizePacket p).getD 1 0 = 255 ∧
    (finalizePacket p).getD (p.getD 3 0 + 3) 0 =
      255 - ((((finalizePacket p).drop 2).take (p.getD 3 0 + 1)).sum % 256) := by
  have h4 : 4 ≤ p.length := by omega
  refine ⟨?_, ?_, ?_⟩
  · unfold finalizePacket
    rw [List.getD_eq_getElem?_getD]
    rw [List.getElem?_set, List.getElem?_set, List.getElem?_set]
    simp [h4, show 0 < p.length by omega]
  · unfold finalizePacket
    rw [List.getD_eq_getElem?_getD]
    rw [List.getElem?_set, List.getElem?_set, List.getElem?_set]
    simp [List.length_set, show 1 < p.length by omega]
  · have hslice : ((finalizePacket p).drop 2).take (p.getD 3 0 + 1) =
        ((((p.set 0 255).set 1 255).drop 2).take (p.getD 3 0 + 1)) := by
      unfold finalizePacket
      rw [List.drop_set]
      rw [if_neg (by omega)]
      rw [take_set_of_le (by omega)]
    rw [hslice]
    unfold finalizePacket
    rw [List.getD_eq_getElem?_getD]
    rw [List.getElem?_set]
    rw [show p.getD 3 0 + 4 - 1 = p.getD 3 0 + 3 from by omega,
        show p.getD 3 0 + 4 - 3 = p.getD 3 0 + 1 from by omega]
    rw [if_pos rfl, if_pos (by simp only [List.length_set]; omega)]
    simp

theorem lor_eight_of_lt {b : Nat} (h : b < 8) : b ||| 8 = b + 8 := by
  rw [Nat.lor_comm]
  have h2 := Nat.mul_add_lt_is_or (i := 3) h 1
  simpa [Nat.add_comm] using h2.symm

theorem lor_on28_of_lt {b : Nat} (h : b < 128) : b ||| 128 = b + 128 := by
  rw [Nat.lor_comm]
  have h2 := Nat.mul_add_lt_is_or (i := 7) h 1
  simpa [Nat.add_comm] using h2.symm

theorem makeWord_eq {a b : Nat} (ha : a < 256) (hb : b < 256) :
    makeWord a b = 256 * b + a := by
  unfold makeWord
  rw [Nat.mod_eq_of_lt ha, Nat.mod_eq_of_lt hb, Nat.shiftLeft_eq, Nat.lor_comm]
  have h2 := Nat.mul_add_lt_is_or (i := 8) ha b
  rw [show b * 2 ^ 8 = 2 ^ 8 * b by ring]
  exact h2.symm ▸ rfl


theorem findHeader_lt_length {l : List Nat} (h : l ≠ []) : findHeader l < l.length := by
  match l with
  | [a] => simp [findHeader]
  | a :: b :: rest =>
    unfold findHeader
    split
    · simp
    · have ih := findHeader_lt_length (l := b :: rest) (by simp)
      simp only [List.length_cons] at *
      omega


theorem rxRead_inv {s : RxState} (h : RxInv s) : RxInv (rxRead s) := by
  obtain ⟨h1, h2⟩ := h
  unfold rxRead
  refine ⟨?_, h2⟩
  show s.buf ++ s.port.stream.take (rxReq s) = [] ↔
    s.received + (s.port.stream.take (rxReq s)).length = 0
  rw [List.append_eq_nil]
  constructor
  · rintro ⟨hb, ht⟩
    rw [ht]
    simp [h1.mp hb]
  · intro hr
    have hx : s.received = 0 ∧ (s.port.stream.take (rxReq s)).length = 0 := by omega
    exact ⟨h1.mpr hx.1, List.length_eq_zero.mp hx.2⟩

theorem rxProcess_inl_inv {t t' : RxState} (h : RxInv t)
    (hp : rxProcess t = Sum.inl t') : RxInv t' := by
  obtain ⟨h1, h2⟩ := h
  unfold rxProcess at hp
  by_cases hw : t.wait ≤ t.buf.length
  · rw [if_pos hw] at hp
    have hbufne : t.buf ≠ [] := by
      intro hb
      rw [hb] at hw
      simp only [List.length_nil] at hw
      omega
    have hlenpos : 4 ≤ t.buf.length := le_trans h2 hw
    have hrecne : t.received ≠ 0 := fun hr => hbufne (h1.mpr hr)
    by_cases hf : findHeader t.buf = 0
    · rw [if_pos hf] at hp
      by_cases hv : 0xFD < t.buf.getD 2 0 ∨ RXPACKET_MAX_LEN < t.buf.getD 3 0 ∨
          0x7F < t.buf.getD 4 0
      · rw [if_pos hv] at hp
        injection hp with hp
        subst hp
        refine ⟨?_, h2⟩
        show t.buf.drop 1 = [] ↔ t.received = 0
        constructor
        · intro hd
          exfalso
          have hlen : (t.buf.drop 1).length = 0 := by rw [hd]; rfl
          rw [List.length_drop] at hlen
          omega
        · intro hr
          exact absurd hr hrecne
      · rw [if_neg hv] at hp
        by_cases hne : t.wait ≠ t.buf.getD 3 0 + 4
        · rw [if_pos hne] at hp
          injection hp with hp
          subst hp
          refine ⟨h1, ?_⟩
          show 4 ≤ t.buf.getD 3 0 + 4
          omega
        · rw [if_neg hne] at hp
          by_cases hlt : t.buf.length < t.wait
          · rw [if_pos hlt] at hp
            by_cases he : t.port.stream.isEmpty = true
            · rw [if_pos he] at hp
              exact absurd hp (by simp)
            · rw [if_neg he] at hp
              injection hp with hp
              subst hp
              exact ⟨h1, h2⟩
          · rw [if_neg hlt] at hp
            exact absurd hp (by simp)
    · rw [if_neg hf] at hp
      injection hp with hp
      subst hp
      have hfl := findHeader_lt_length hbufne
      refine ⟨?_, h2⟩
      show t.buf.drop (findHeader t.buf) = [] ↔ t.received = 0
      constructor
      · intro hd
        exfalso
        have hlen : (t.buf.drop (findHeader t.buf)).length = 0 := by rw [hd]; rfl
        rw [List.length_drop] at hlen
        omega
      · intro hr
        exact absurd hr hrecne
  · rw [if_neg hw] at hp
    by_cases he2 : t.port.stream.isEmpty = true
    · rw [if_pos he2] at hp
      exact absurd hp (by simp)
    · rw [if_neg he2] at hp
      injection hp with hp
      subst hp
      exact ⟨h1, h2⟩

theorem rxProcess_timeout {t : RxState} {d : RxDone} (h : RxInv t)
    (hp : rxProcess t = Sum.inr d) (ht : d.viaTimeout = true) :
    d.result = if d.received = 0 then COMM_RX_TIMEOUT else COMM_RX_CORRUPT := by
  obtain ⟨h1, h2⟩ := h
  have hcongr : (if t.buf.isEmpty then COMM_RX_TIMEOUT else COMM_RX_CORRUPT) =
      if t.received = 0 then COMM_RX_TIMEOUT else COMM_RX_CORRUPT := by
    by_cases hb : t.buf = []
    · rw [hb]
      simp [h1.mp hb]
    · rw [if_neg (by simpa using hb), if_neg (fun hr => hb (h1.mpr hr))]
  unfold rxProcess at hp
  by_cases hw : t.wait ≤ t.buf.length
  · rw [if_pos hw] at hp
    by_cases hf : findHeader t.buf = 0
    · rw [if_pos hf] at hp
      by_cases hv : 0xFD < t.buf.getD 2 0 ∨ RXPACKET_MAX_LEN < t.buf.getD 3 0 ∨
          0x7F < t.buf.getD 4 0
      · rw [if_pos hv] at hp
        exact absurd hp (by simp)
      · rw [if_neg hv] at hp
        by_cases hne : t.wait ≠ t.buf.getD 3 0 + 4
        · rw [if_pos hne] at hp
          exact absurd hp (by simp)
        · rw [if_neg hne] at hp
          by_cases hlt : t.buf.length < t.wait
          · rw [if_pos hlt] at hp
            by_cases he : t.port.stream.isEmpty = true
            · rw [if_pos he] at hp
              have hd := Sum.inr.inj hp
              subst hd
              exact hcongr
            · rw [if_neg he] at hp
              exact absurd hp (by simp)
          · rw [if_neg hlt] at hp
            have hd := Sum.inr.inj hp
            subst hd
            simp only [] at ht
            exact absurd ht (by simp)
    · rw [if_neg hf] at hp
      exact absurd hp (by simp)
  · rw [if_neg hw] at hp
    by_cases he2 : t.port.stream.isEmpty = true
    · rw [if_pos he2] at hp
      have hd := Sum.inr.inj hp
      subst hd
      exact hcongr
    · rw [if_neg he2] at hp
      exact absurd hp (by simp)

theorem rxRun_timeout : ∀ (fuel : Nat) (s : RxState) (d : RxDone), RxInv s →
    rxRun fuel s = some d → d.viaTimeout = true →
    d.result = if d.received = 0 then COMM_RX_TIMEOUT else COMM_RX_CORRUPT := by
  intro fuel
  induction fuel with
  | zero =>
    intro s d _ h
    simp [rxRun] at h
  | succ n ih =>
    intro s d hInv hrun ht
    rw [rxRun] at hrun
    rcases hit : rxIter s with t' | d'
    · rw [hit] at hrun
      exact ih t' d (rxProcess_inl_inv (rxRead_inv hInv) hit) hrun ht
    · rw [hit] at hrun
      have hd := Option.some.inj hrun
      subst hd
      exact rxProcess_timeout (rxRead_inv hInv) hit ht


theorem pairFree_cons_cons {a b : Nat} {l : List Nat}
    (h : pairFree (a :: b :: l) = true) :
    ¬(a = 255 ∧ b = 255) ∧ pairFree (b :: l) = true := by
  by_cases hab : a = 255 ∧ b = 255
  · rw [show pairFree (a :: b :: l) = false from by unfold pairFree; rw [if_pos hab]] at h
    exact absurd h (by simp)
  · refine ⟨hab, ?_⟩
    unfold pairFree at h
    rwa [if_neg hab] at h

theorem pairFree_cons {a : Nat} {l : List Nat} (h : pairFree (a :: l) = true) :
    pairFree l = true := by
  match l with
  | [] => rfl
  | b :: rest => exact (pairFree_cons_cons h).2

theorem pairFree_drop {l : List Nat} (k : Nat) (h : pairFree l = true) :
    pairFree (l.drop k) = true := by
  induction k generalizing l with
  | zero => simpa using h
  | succ m ih =>
    match l with
    | [] => rfl
    | a :: rest =>
      rw [List.drop_succ_cons]
      exact ih (pairFree_cons h)

theorem pairFree_take : ∀ (l : List Nat) (k : Nat), pairFree l = true →
    pairFree (l.take k) = true
  | _, 0, _ => rfl
  | [], _, _ => by rw [List.take_nil]; rfl
  | [a], k + 1, _ => by
    rw [List.take_succ_cons, List.take_nil]
    rfl
  | a :: b :: rest, k + 1, h => by
    rw [List.take_succ_cons]
    obtain ⟨hab, htl⟩ := pairFree_cons_cons h
    cases k with
    | zero => rfl
    | succ m =>
      rw [List.take_succ_cons]
      have htk := pairFree_take (b :: rest) (m + 1) htl
      rw [List.take_succ_cons] at htk
      unfold pairFree
      rw [if_neg hab]
      exact htk

theorem findHeader_sync (l : List Nat) : findHeader (255 :: 255 :: l) = 0 := by
  unfold findHeader
  rw [if_pos ⟨rfl, rfl⟩]

theorem findHeader_pairFree : ∀ {l : List Nat}, pairFree l = true →
    findHeader l = l.length - 1
  | [], _ => rfl
  | [a], _ => rfl
  | a :: b :: rest, h => by
    obtain ⟨hab, htl⟩ := pairFree_cons_cons h
    unfold findHeader
    rw [if_neg hab, findHeader_pairFree htl]
    simp only [List.length_cons]
    omega

theorem findHeader_append : ∀ (gp tail : List Nat), pairFree (gp ++ [255]) = true →
    findHeader (gp ++ 255 :: 255 :: tail) = gp.length
  | [], tail, _ => by
    rw [List.nil_append]
    exact findHeader_sync tail
  | [a], tail, h => by
    have ha : ¬(a = 255 ∧ (255 : Nat) = 255) := (pairFree_cons_cons h).1
    show findHeader (a :: 255 :: 255 :: tail) = 1
    unfold findHeader
    rw [if_neg ha, findHeader_sync]
  | a :: b :: gp', tail, h => by
    rw [List.cons_append, List.cons_append] at h
    obtain ⟨hab, htl⟩ := pairFree_cons_cons h
    show (if a = 255 ∧ b = 255 then 0
      else findHeader (b :: (gp' ++ 255 :: 255 :: tail)) + 1) = (a :: b :: gp').length
    rw [if_neg hab]
    have hrec := findHeader_append (b :: gp') tail htl
    rw [show (b :: (gp' ++ 255 :: 255 :: tail)) = (b :: gp') ++ 255 :: 255 :: tail from rfl]
    rw [hrec]
    simp

theorem rxRun_step {s s1 : RxState} {d : RxDone} {k : Nat}
    (h : rxIter s = Sum.inl s1) (h2 : rxRun k s1 = some d) :
    rxRun (k + 1) s = some d := by
  rw [rxRun, h]
  exact h2

theorem rxRun_done {s : RxState} {d : RxDone} (h : rxIter s = Sum.inr d) :
    rxRun 1 s = some d := by
  rw [rxRun, h]

theorem rxRead_entry (u : Bool) (wc wr : List Nat) (buf s' x : List Nat) (r : Nat)
    (hsplit : buf ++ s' = x) (hblen : buf.length ≤ 5) (hxlen : 6 ≤ x.length) :
    rxRead ⟨buf, 6, ⟨u, s', wc, wr⟩, r⟩ =
      ⟨x.take 6, 6, ⟨u, x.drop 6, wc, wr⟩, r + (6 - buf.length)⟩ := by
  subst hsplit
  have hxl := List.length_append buf s'
  unfold rxRead rxReq
  dsimp only
  rw [if_neg (by omega)]
  have h1 : buf ++ s'.take (6 - buf.length) = (buf ++ s').take 6 := by
    rw [List.take_append_eq_append_take, @List.take_of_length_le _ 6 buf (by omega)]
  have h2 : s'.drop (6 - buf.length) = (buf ++ s').drop 6 := by
    rw [List.drop_append_eq_append_drop, @List.drop_eq_nil_of_le _ buf 6 (by omega),
      List.nil_append]
  have h3 : (s'.take (6 - buf.length)).length = 6 - buf.length := by
    rw [List.length_take]
    omega
  rw [h1, h2, h3]

theorem rxRead_exact (u : Bool) (wc wr : List Nat) (buf st : List Nat) (r w : Nat)
    (hw : buf.length ≤ w) (hst : st.length = w - buf.length) :
    rxRead ⟨buf, w, ⟨u, st, wc, wr⟩, r⟩ =
      ⟨buf ++ st, w, ⟨u, [], wc, wr⟩, r + st.length⟩ := by
  unfold rxRead rxReq
  dsimp only
  rw [if_neg (by omega)]
  rw [List.take_of_length_le (by omega), List.drop_eq_nil_of_le (by omega)]

theorem rxProcess_discard {t : RxState} (hw : t.wait ≤ t.buf.length)
    (hf : findHeader t.buf ≠ 0) :
    rxProcess t = Sum.inl ⟨t.buf.drop (findHeader t.buf), t.wait, t.port, t.received⟩ := by
  unfold rxProcess
  rw [if_pos hw, if_neg hf]

theorem rxProcess_grow (pid plen perr : Nat) (tail : List Nat) (u : Bool)
    (wc wr st : List Nat) (R : Nat)
    (hid : pid ≤ 0xFD) (hl250 : plen ≤ RXPACKET_MAX_LEN) (herr : perr ≤ 0x7F)
    (hpl : plen ≠ 2) (htl : 1 ≤ tail.length) :
    rxProcess ⟨255 :: 255 :: pid :: plen :: perr :: tail, 6, ⟨u, st, wc, wr⟩, R⟩ =
      Sum.inl ⟨255 :: 255 :: pid :: plen :: perr :: tail, plen + 4,
               ⟨u, st, wc, wr⟩, R⟩ := by
  unfold rxProcess
  dsimp only
  rw [if_pos (by simp only [List.length_cons]; omega)]
  rw [findHeader_sync, if_pos rfl]
  rw [if_neg (by
    simp only [List.getD_cons_succ, List.getD_cons_zero]
    omega)]
  rw [if_pos (by
    simp only [List.getD_cons_succ, List.getD_cons_zero]
    omega)]
  simp only [List.getD_cons_succ, List.getD_cons_zero]

theorem rxProcess_complete (pid plen perr : Nat) (rest : List Nat) (u : Bool)
    (wc wr st : List Nat) (R : Nat)
    (hid : pid ≤ 0xFD) (hl250 : plen ≤ RXPACKET_MAX_LEN) (hl2 : 2 ≤ plen)
    (herr : perr ≤ 0x7F) (hrest : rest.length = plen - 1)
    (hchk : (255 :: 255 :: pid :: plen :: perr :: rest).getD (plen + 3) 0 =
      255 - ((((255 :: 255 :: pid :: plen :: perr :: rest).drop 2).take (plen + 1)).sum % 256)) :
    rxProcess ⟨255 :: 255 :: pid :: plen :: perr :: rest, plen + 4, ⟨u, st, wc, wr⟩, R⟩ =
      Sum.inr ⟨255 :: 255 :: pid :: plen :: perr :: rest, COMM_SUCCESS, false,
               ⟨u, st, wc, wr⟩, R⟩ := by
  unfold rxProcess
  dsimp only
  rw [if_pos (by simp only [List.length_cons]; omega)]
  rw [findHeader_sync, if_pos rfl]
  rw [if_neg (by
    simp only [List.getD_cons_succ, List.getD_cons_zero]
    omega)]
  rw [if_neg (by
    simp only [List.getD_cons_succ, List.getD_cons_zero]
    omega)]
  rw [if_neg (by simp only [List.length_cons]; omega)]
  rw [show plen + 4 - 1 = plen + 3 from by omega, show plen + 4 - 3 = plen + 1 from by omega]
  rw [if_pos hchk]

theorem rx_resync_aux (pid plen perr : Nat) (rest : List Nat)
    (hid : pid ≤ 0xFD) (hl250 : plen ≤ RXPACKET_MAX_LEN) (hl2 : 2 ≤ plen)
    (herr : perr ≤ 0x7F) (hrest : rest.length = plen - 1)
    (hchk : (255 :: 255 :: pid :: plen :: perr :: rest).getD (plen + 3) 0 =
      255 - ((((255 :: 255 :: pid :: plen :: perr :: rest).drop 2).take (plen + 1)).sum % 256)) :
    ∀ n (g1 buf s' : List Nat) (u : Bool) (wc wr : List Nat) (r : Nat),
      g1.length = n →
      pairFree (g1 ++ [255]) = true →
      buf ++ s' = g1 ++ (255 :: 255 :: pid :: plen :: perr :: rest) →
      buf.length ≤ 5 →
      ∃ k, rxRun k ⟨buf, 6, ⟨u, s', wc, wr⟩, r⟩ =
        some ⟨255 :: 255 :: pid :: plen :: perr :: rest, COMM_SUCCESS, false,
              ⟨u, [], wc, wr⟩, r + s'.length⟩ := by
  have hPlen : (255 :: 255 :: pid :: plen :: perr :: rest).length = plen + 4 := by
    simp only [List.length_cons, hrest]
    omega
  intro n
  induction n using Nat.strong_induction_on with
  | _ n ih =>
  intro g1 buf s' u wc wr r hg1 hpf hsplit hblen
  have hlen_eq : buf.length + s'.length = g1.length + (plen + 4) := by
    have hc := congrArg List.length hsplit
    simp only [List.length_append, hPlen] at hc
    omega
  have hx6 : 6 ≤ (g1 ++ (255 :: 255 :: pid :: plen :: perr :: rest)).length := by
    simp only [List.length_append, hPlen]
    omega
  have hread := rxRead_entry u wc wr buf s'
    (g1 ++ (255 :: 255 :: pid :: plen :: perr :: rest)) r hsplit hblen hx6
  by_cases hn0 : n = 0
  · -- no garbage left: the buffer is a prefix of the packet
    subst hn0
    have hgnil : g1 = [] := List.length_eq_zero.mp hg1
    subst hgnil
    simp only [List.length_nil, List.nil_append] at hlen_eq hread
    by_cases hp2 : plen = 2
    · -- the packet is exactly the 6-byte minimum envelope: one iteration
      subst hp2
      have htk : (255 :: 255 :: pid :: 2 :: perr :: rest).take 6 =
          255 :: 255 :: pid :: 2 :: perr :: rest :=
        List.take_of_length_le (by omega)
      have hdr : (255 :: 255 :: pid :: 2 :: perr :: rest).drop 6 = [] :=
        List.drop_eq_nil_of_le (by omega)
      have hiter : rxIter ⟨buf, 6, ⟨u, s', wc, wr⟩, r⟩ =
          Sum.inr ⟨255 :: 255 :: pid :: 2 :: perr :: rest, COMM_SUCCESS, false,
                   ⟨u, [], wc, wr⟩, r + (6 - buf.length)⟩ := by
        show rxProcess (rxRead ⟨buf, 6, ⟨u, s', wc, wr⟩, r⟩) = _
        rw [hread, htk, hdr]
        rw [show (6 : Nat) = 2 + 4 from rfl]
        exact rxProcess_complete pid 2 perr rest u wc wr [] (r + (6 - buf.length))
          hid hl250 hl2 herr hrest hchk
      refine ⟨1, ?_⟩
      rw [show r + s'.length = r + (6 - buf.length) from by omega]
      exact rxRun_done hiter
    · -- longer packet: one iteration to learn the length, one to finish
      have htk6 : (255 :: 255 :: pid :: plen :: perr :: rest).take 6 =
          255 :: 255 :: pid :: plen :: perr :: rest.take 1 := rfl
      have hiter1 : rxIter ⟨buf, 6, ⟨u, s', wc, wr⟩, r⟩ =
          Sum.inl ⟨255 :: 255 :: pid :: plen :: perr :: rest.take 1, plen + 4,
            ⟨u, (255 :: 255 :: pid :: plen :: perr :: rest).drop 6, wc, wr⟩,
            r + (6 - buf.length)⟩ := by
        show rxProcess (rxRead ⟨buf, 6, ⟨u, s', wc, wr⟩, r⟩) = _
        rw [hread, htk6]
        exact rxProcess_grow pid plen perr (rest.take 1) u wc wr _ _
          hid hl250 herr hp2 (by rw [List.length_take]; omega)
      have hread2 := rxRead_exact u wc wr
        (255 :: 255 :: pid :: plen :: perr :: rest.take 1)
        ((255 :: 255 :: pid :: plen :: perr :: rest).drop 6)
        (r + (6 - buf.length)) (plen + 4)
        (by simp only [List.length_cons, List.length_take]; omega)
        (by rw [List.length_drop, hPlen]; simp only [List.length_cons, List.length_take]; omega)
      have hiter2 : rxIter ⟨255 :: 255 :: pid :: plen :: perr :: rest.take 1, plen + 4,
            ⟨u, (255 :: 255 :: pid :: plen :: perr :: rest).drop 6, wc, wr⟩,
            r + (6 - buf.length)⟩ =
          Sum.inr ⟨255 :: 255 :: pid :: plen :: perr :: rest, COMM_SUCCESS, false,
            ⟨u, [], wc, wr⟩,
            r + (6 - buf.length) + ((255 :: 255 :: pid :: plen :: perr :: rest).drop 6).length⟩ := by
        show rxProcess (rxRead _) = _
        rw [hread2]
        rw [show (255 :: 255 :: pid :: plen :: perr :: rest.take 1) ++
              (255 :: 255 :: pid :: plen :: perr :: rest).drop 6 =
            255 :: 255 :: pid :: plen :: perr :: rest from by
          have := List.take_append_drop 6 (255 :: 255 :: pid :: plen :: perr :: rest)
          rwa [htk6] at this]
        exact rxProcess_complete pid plen perr rest u wc wr _ _
          hid hl250 hl2 herr hrest hchk
      refine ⟨2, ?_⟩
      rw [show r + s'.length =
          r + (6 - buf.length) + ((255 :: 255 :: pid :: plen :: perr :: rest).drop 6).length
          from by rw [List.length_drop, hPlen]; omega]
      exact rxRun_step hiter1 (rxRun_done hiter2)
  · -- garbage remains: this iteration discards `min n 5` garbage bytes
    have hm : ∃ m, 1 ≤ m ∧ m ≤ 5 ∧ m ≤ n ∧
        findHeader ((g1 ++ (255 :: 255 :: pid :: plen :: perr :: rest)).take 6) = m := by
      by_cases h5 : n ≤ 4
      · refine ⟨n, by omega, by omega, le_refl n, ?_⟩
        have hB : (g1 ++ (255 :: 255 :: pid :: plen :: perr :: rest)).take 6 =
            g1 ++ 255 :: 255 :: ((pid :: plen :: perr :: rest).take (4 - n)) := by
          rw [List.take_append_eq_append_take, @List.take_of_length_le _ 6 g1 (by omega), hg1]
          congr 1
          rw [show 6 - n = (4 - n) + 1 + 1 from by omega]
          rw [List.take_succ_cons, List.take_succ_cons]
        rw [hB, findHeader_append g1 _ hpf, hg1]
      · refine ⟨5, by omega, by omega, by omega, ?_⟩
        have hB : (g1 ++ (255 :: 255 :: pid :: plen :: perr :: rest)).take 6 =
            (g1 ++ [255]).take 6 := by
          rw [List.take_append_eq_append_take, List.take_append_eq_append_take]
          congr 1
          rcases (show 6 - g1.length = 0 ∨ 6 - g1.length = 1 from by omega) with h | h <;>
            rw [h] <;> rfl
        rw [hB, findHeader_pairFree (pairFree_take _ 6 hpf)]
        rw [List.length_take]
        simp only [List.length_append, List.length_cons, List.length_nil]
        omega
    obtain ⟨m, hm1, hm5, hmn, hfh⟩ := hm
    have hBlen : ((g1 ++ (255 :: 255 :: pid :: plen :: perr :: rest)).take 6).length = 6 := by
      rw [List.length_take]
      omega
    have hiter : rxIter ⟨buf, 6, ⟨u, s', wc, wr⟩, r⟩ =
        Sum.inl ⟨((g1 ++ (255 :: 255 :: pid :: plen :: perr :: rest)).take 6).drop m, 6,
          ⟨u, (g1 ++ (255 :: 255 :: pid :: plen :: perr :: rest)).drop 6, wc, wr⟩,
          r + (6 - buf.length)⟩ := by
      show rxProcess (rxRead ⟨buf, 6, ⟨u, s', wc, wr⟩, r⟩) = _
      rw [hread]
      rw [rxProcess_discard (by rw [hBlen]) (by rw [hfh]; omega)]
      rw [hfh]
    -- the new state splits as (g1.drop m) ++ packet
    have hsplit2 : ((g1 ++ (255 :: 255 :: pid :: plen :: perr :: rest)).take 6).drop m ++
        (g1 ++ (255 :: 255 :: pid :: plen :: perr :: rest)).drop 6 =
        g1.drop m ++ (255 :: 255 :: pid :: plen :: perr :: rest) := by
      rw [List.drop_take]
      rw [show (g1 ++ (255 :: 255 :: pid :: plen :: perr :: rest)).drop 6 =
          ((g1 ++ (255 :: 255 :: pid :: plen :: perr :: rest)).drop m).drop (6 - m) from by
        rw [List.drop_drop]
        congr 1
        omega]
      rw [List.take_append_drop]
      rw [List.drop_append_eq_append_drop, show m - g1.length = 0 from by omega, List.drop_zero]
    have hpf2 : pairFree (g1.drop m ++ [255]) = true := by
      have hdp : (g1 ++ [255]).drop m = g1.drop m ++ [255] := by
        rw [List.drop_append_eq_append_drop, show m - g1.length = 0 from by omega,
          List.drop_zero]
      rw [← hdp]
      exact pairFree_drop m hpf
    have hblen2 : (((g1 ++ (255 :: 255 :: pid :: plen :: perr :: rest)).take 6).drop m).length ≤ 5 := by
      rw [List.length_drop, hBlen]
      omega
    have hg12 : (g1.drop m).length = n - m := by rw [List.length_drop, hg1]
    obtain ⟨k, hk⟩ := ih (n - m) (by omega) (g1.drop m)
      (((g1 ++ (255 :: 255 :: pid :: plen :: perr :: rest)).take 6).drop m)
      ((g1 ++ (255 :: 255 :: pid :: plen :: perr :: rest)).drop 6)
      u wc wr (r + (6 - buf.length)) hg12 hpf2 hsplit2 hblen2
    refine ⟨k + 1, ?_⟩
    rw [show r + s'.length =
        r + (6 - buf.length) +
          ((g1 ++ (255 :: 255 :: pid :: plen :: perr :: rest)).drop 6).length from by
      rw [List.length_drop, List.length_append, hPlen]
      omega]
    exact rxRun_step hiter hk

/-! ## Claim theorems -/

/-- C1: every instruction packet transmitted by `txPacket` whose declared
length fits `TXPACKET_MAX_LEN` goes on the wire starting with the two sync
bytes `0xFF 0xFF`, and its final byte is the 8-bit one's complement of the sum
of all bytes from the address byte through the last parameter byte. -/
theorem txPacket_wire_format (port : Port) (p : List Nat)
    (hbusy : port.usingFlag = false)
    (hlen : p.length = p.getD 3 0 + 4)
    (hmax : p.getD 3 0 + 4 ≤ TXPACKET_MAX_LEN) :
    (txPacket port p).2.2.wire = port.wire ++ finalizePacket p ∧
    (finalizePacket p).getD 0 0 = 255 ∧
    (finalizePacket p).getD 1 0 = 255 ∧
    (finalizePacket p).getD (p.getD 3 0 + 3) 0 =
      255 - ((((finalizePacket p).drop 2).take (p.getD 3 0 + 1)).sum % 256) := by
  refine ⟨?_, finalizePacket_header_checksum p hlen⟩
  unfold txPacket writePort
  rw [if_neg (by simp [hbusy]), if_neg (by omega)]
  rcases hw : port.wcounts with _ | ⟨w, rest⟩
  · by_cases he : (finalizePacket p).length ≠ p.getD 3 0 + 4
    · rw [if_pos he]
    · rw [if_neg he]
  · by_cases he : w ≠ p.getD 3 0 + 4
    · rw [if_pos he]
    · rw [if_neg he]

/-- Closed instance of `txPacket_wire_format` on a PING packet for ID 1. -/
theorem txPacket_wire_format_witness :
    (txPacket ⟨false, [], [], []⟩ [0, 0, 1, 2, 1, 0]).2.2.wire =
      [] ++ finalizePacket [0, 0, 1, 2, 1, 0] ∧
    (finalizePacket [0, 0, 1, 2, 1, 0]).getD 0 0 = 255 ∧
    (finalizePacket [0, 0, 1, 2, 1, 0]).getD 1 0 = 255 ∧
    (finalizePacket [0, 0, 1, 2, 1, 0]).getD (([0, 0, 1, 2, 1, 0] : List Nat).getD 3 0 + 3) 0 =
      255 - ((((finalizePacket [0, 0, 1, 2, 1, 0]).drop 2).take
        (([0, 0, 1, 2, 1, 0] : List Nat).getD 3 0 + 1)).sum % 256) :=
  txPacket_wire_format ⟨false, [], [], []⟩ [0, 0, 1, 2, 1, 0] rfl (by decide) (by decide)


/-- C2: for a stream of garbage bytes (containing no `0xFF 0xFF` pair, not
even spanning into the packet) followed by a complete, structurally valid,
correctly checksummed status packet, `rxPacket` returns exactly that packet
with `COMM_SUCCESS`, having consumed the whole stream — i.e. it discarded
exactly the garbage prefix. -/
theorem rxPacket_resync (garbage : List Nat) (pid plen perr : Nat) (rest : List Nat)
    (u : Bool) (wc wr : List Nat)
    (hpf : pairFree (garbage ++ [255]) = true)
    (hid : pid ≤ 0xFD) (hl250 : plen ≤ RXPACKET_MAX_LEN) (hl2 : 2 ≤ plen)
    (herr : perr ≤ 0x7F) (hrest : rest.length = plen - 1)
    (hchk : (255 :: 255 :: pid :: plen :: perr :: rest).getD (plen + 3) 0 =
      255 - ((((255 :: 255 :: pid :: plen :: perr :: rest).drop 2).take (plen + 1)).sum % 256)) :
    ∃ fuel, rxPacket fuel
        ⟨u, garbage ++ (255 :: 255 :: pid :: plen :: perr :: rest), wc, wr⟩ =
      some ⟨255 :: 255 :: pid :: plen :: perr :: rest, COMM_SUCCESS, false,
            ⟨false, [], wc, wr⟩,
            garbage.length + (255 :: 255 :: pid :: plen :: perr :: rest).length⟩ := by
  obtain ⟨k, hk⟩ := rx_resync_aux pid plen perr rest hid hl250 hl2 herr hrest hchk
    garbage.length garbage [] (garbage ++ (255 :: 255 :: pid :: plen :: perr :: rest))
    u wc wr 0 rfl hpf (by rw [List.nil_append]) (by simp)
  refine ⟨k, ?_⟩
  unfold rxPacket
  rw [hk]
  simp [List.length_append]

/-- Closed instance of `rxPacket_resync`: 3 garbage bytes before a valid
packet for ID 1 with one parameter byte. -/
theorem rxPacket_resync_witness :
    ∃ fuel, rxPacket fuel
        ⟨true, [9, 255, 7] ++ (255 :: 255 :: 1 :: 3 :: 0 :: [7, 244]), [], []⟩ =
      some ⟨255 :: 255 :: 1 :: 3 :: 0 :: [7, 244], COMM_SUCCESS, false,
            ⟨false, [], [], []⟩,
            ([9, 255, 7] : List Nat).length + (255 :: 255 :: 1 :: 3 :: 0 :: [7, 244]).length⟩ :=
  rxPacket_resync [9, 255, 7] 1 3 0 [7, 244] true [] []
    (by decide) (by decide) (by decide) (by decide) (by decide) (by decide) (by decide)

/-- C3: whenever the reception loop exits through the timeout check, the
result is `COMM_RX_TIMEOUT` when zero bytes were received and
`COMM_RX_CORRUPT` when a non-empty partial packet was received. -/
theorem rxPacket_timeout_result (fuel : Nat) (port : Port) (d : RxDone)
    (h : rxPacket fuel port = some d) (ht : d.viaTimeout = true) :
    d.result = if d.received = 0 then COMM_RX_TIMEOUT else COMM_RX_CORRUPT := by
  unfold rxPacket at h
  rcases hr : rxRun fuel ⟨[], 6, port, 0⟩ with _ | d0
  · rw [hr] at h
    simp at h
  · rw [hr] at h
    simp only [Option.map_some'] at h
    have hd := Option.some.inj h
    subst hd
    exact rxRun_timeout fuel ⟨[], 6, port, 0⟩ d0 ⟨by simp, by show 4 ≤ 6; omega⟩ hr ht

/-- Closed instance of `rxPacket_timeout_result`: an empty stream times out
with zero bytes received. -/
theorem rxPacket_timeout_result_witness :
    (⟨[], COMM_RX_TIMEOUT, true, ⟨false, [], [], []⟩, 0⟩ : RxDone).result =
      if (⟨[], COMM_RX_TIMEOUT, true, ⟨false, [], [], []⟩, 0⟩ : RxDone).received = 0
      then COMM_RX_TIMEOUT else COMM_RX_CORRUPT :=
  rxPacket_timeout_result 1 ⟨true, [], [], []⟩
    ⟨[], COMM_RX_TIMEOUT, true, ⟨false, [], [], []⟩, 0⟩ rfl rfl

/-- C4: `txPacket` with the busy flag already set returns `COMM_PORT_BUSY`
immediately, leaving the port (including the wire log) untouched; and when the
port reports fewer bytes written than the packet length, it returns
`COMM_TX_FAIL` and clears the busy flag. -/
theorem txPacket_fails_closed (port : Port) (p : List Nat) (w : Nat) (rest : List Nat) :
    (port.usingFlag = true → txPacket port p = (COMM_PORT_BUSY, p, port)) ∧
    (port.usingFlag = false → p.getD 3 0 + 4 ≤ TXPACKET_MAX_LEN →
      port.wcounts = w :: rest → w < p.getD 3 0 + 4 →
      (txPacket port p).1 = COMM_TX_FAIL ∧ (txPacket port p).2.2.usingFlag = false) := by
  constructor
  · intro h
    unfold txPacket
    rw [if_pos h]
  · intro hbusy hmax hw hlt
    unfold txPacket writePort
    rw [if_neg (by simp [hbusy]), if_neg (by omega)]
    simp only [hw]
    rw [if_pos (by omega)]
    exact ⟨rfl, rfl⟩

/-- Closed instance of `txPacket_fails_closed`: a busy port, and a port whose
write reports only 3 of 6 bytes written. -/
theorem txPacket_fails_closed_witness :
    txPacket ⟨true, [], [], []⟩ [0, 0, 1, 2, 1, 0] =
      (COMM_PORT_BUSY, [0, 0, 1, 2, 1, 0], ⟨true, [], [], []⟩) ∧
    ((txPacket ⟨false, [], [3], []⟩ [0, 0, 1, 2, 1, 0]).1 = COMM_TX_FAIL ∧
     (txPacket ⟨false, [], [3], []⟩ [0, 0, 1, 2, 1, 0]).2.2.usingFlag = false) :=
  ⟨(txPacket_fails_closed ⟨true, [], [], []⟩ [0, 0, 1, 2, 1, 0] 0 []).1 rfl,
   (txPacket_fails_closed ⟨false, [], [3], []⟩ [0, 0, 1, 2, 1, 0] 3 []).2
     rfl (by decide) rfl (by decide)⟩

/-- C5: after a successful transmit of a packet addressed to the broadcast ID
254, `txRxPacket` returns immediately with an empty response, result
`COMM_SUCCESS` and device error byte 0, leaves the receive stream untouched
(no reception is attempted), and releases the busy flag. -/
theorem txRxPacket_broadcast (oFuel rxFuel : Nat) (port : Port) (p : List Nat)
    (hbusy : port.usingFlag = false)
    (hlen : p.length = p.getD 3 0 + 4)
    (hmax : p.getD 3 0 + 4 ≤ TXPACKET_MAX_LEN)
    (hw : port.wcounts = [])
    (hid : p.getD 2 0 = BROADCAST_ID) :
    txRxPacket oFuel rxFuel port p =
      some ([], COMM_SUCCESS, 0,
        { port with usingFlag := false,
                    wire := port.wire ++ finalizePacket p }) := by
  unfold txRxPacket
  rw [txPacket_success port p hbusy hlen hmax hw]
  rw [if_neg (by simp [COMM_SUCCESS])]
  rw [if_pos (by rw [finalizePacket_getD_two, hid])]

/-- Closed instance of `txRxPacket_broadcast`: a broadcast ACTION packet with
pending stream bytes that are left untouched. -/
theorem txRxPacket_broadcast_witness :
    txRxPacket 3 9 ⟨false, [7, 7, 7], [], []⟩ [0, 0, 254, 2, 5, 0] =
      some ([], COMM_SUCCESS, 0,
        ⟨false, [7, 7, 7], [], [] ++ finalizePacket [0, 0, 254, 2, 5, 0]⟩) :=
  txRxPacket_broadcast 3 9 ⟨false, [7, 7, 7], [], []⟩ [0, 0, 254, 2, 5, 0]
    rfl (by decide) (by decide) rfl (by decide)

/-- C6 counterexample: at distance 50, speed 3400, acc register 1 (scaled
acceleration a = 100), the claim's triangular precondition `d_acc ≥ d` holds,
yet the slept duration is `sqrt(2·50/1) = 10`, not the claimed
`sqrt(2·d/a) = sqrt(2·50/100) = 1`: the code divides by the raw register
value, not the scaled acceleration. -/
theorem moveToWait_triangular_counterexample :
    ((((50 : Nat) : Int) - ((0 : Nat) : Int)).natAbs : ℝ) ≤
      ((1 : ℝ) * 100) * ((3400 : ℝ) / ((1 : ℝ) * 100)) ^ 2 / 2 ∧
    moveToWait 50 0 3400 1 = 10 ∧
    Real.sqrt (2 * (50 : ℝ) / ((1 : ℝ) * 100)) = 1 ∧
    moveToWait 50 0 3400 1 ≠ Real.sqrt (2 * (50 : ℝ) / ((1 : ℝ) * 100)) := by
  have h2 : moveToWait 50 0 3400 1 = 10 := by
    unfold moveToWait
    rw [if_pos (by norm_num)]
    rw [show 2 * ((((50 : Nat) : Int) - ((0 : Nat) : Int)).natAbs : ℝ) / ((1 : Nat) : ℝ)
          = 10 ^ 2 by norm_num]
    exact Real.sqrt_sq (by norm_num)
  have h3 : Real.sqrt (2 * (50 : ℝ) / ((1 : ℝ) * 100)) = 1 := by
    rw [show 2 * (50 : ℝ) / ((1 : ℝ) * 100) = 1 ^ 2 by norm_num]
    exact Real.sqrt_sq (by norm_num)
  refine ⟨by norm_num, h2, h3, ?_⟩
  rw [h2, h3]
  norm_num

/-- C6 (amended): with `a = acc × 100`, `t_acc = v/a` and
`d_acc = a·t_acc²/2`, the `moveTo` wait equals `sqrt(2·d/acc)` — dividing by
the raw `acc` register value, not the scaled `a` — when `d_acc ≥ d`, and
`t_acc + (d − d_acc)/v` otherwise. -/
theorem moveToWait_profile (position curr_pos speed acc : Nat)
    (hacc : 1 ≤ acc) (hspeed : 1 ≤ speed) :
    ((((position : Int) - (curr_pos : Int)).natAbs : ℝ) ≤
        ((acc : ℝ) * 100) * ((speed : ℝ) / ((acc : ℝ) * 100)) ^ 2 / 2 →
      moveToWait position curr_pos speed acc =
        Real.sqrt (2 * (((position : Int) - (curr_pos : Int)).natAbs : ℝ) / (acc : ℝ))) ∧
    (((acc : ℝ) * 100) * ((speed : ℝ) / ((acc : ℝ) * 100)) ^ 2 / 2 <
        (((position : Int) - (curr_pos : Int)).natAbs : ℝ) →
      moveToWait position curr_pos speed acc =
        (speed : ℝ) / ((acc : ℝ) * 100) +
          ((((position : Int) - (curr_pos : Int)).natAbs : ℝ) -
            ((acc : ℝ) * 100) * ((speed : ℝ) / ((acc : ℝ) * 100)) ^ 2 / 2) / (speed : ℝ)) := by
  have hring : 0.5 * ((acc : ℝ) * 100) * ((speed : ℝ) / ((acc : ℝ) * 100)) *
        ((speed : ℝ) / ((acc : ℝ) * 100)) =
      ((acc : ℝ) * 100) * ((speed : ℝ) / ((acc : ℝ) * 100)) ^ 2 / 2 := by ring
  constructor
  · intro h
    unfold moveToWait
    rw [if_pos (by rw [hring]; exact h)]
  · intro h
    unfold moveToWait
    rw [if_neg (by rw [hring]; exact not_le.mpr h)]
    rw [hring]

/-- Closed instance of `moveToWait_profile`: the trapezoidal case at distance
2048, speed 2400, acc 50 (so `t_acc = 0.48 s`, `d_acc = 576` steps). -/
theorem moveToWait_profile_witness :
    1 ≤ 50 ∧ 1 ≤ 2400 ∧
    moveToWait 2048 0 2400 50 =
      ((2400 : Nat) : ℝ) / (((50 : Nat) : ℝ) * 100) +
        (((((2048 : Nat) : Int) - ((0 : Nat) : Int)).natAbs : ℝ) -
          (((50 : Nat) : ℝ) * 100) * (((2400 : Nat) : ℝ) / (((50 : Nat) : ℝ) * 100)) ^ 2 / 2) /
          ((2400 : Nat) : ℝ) :=
  ⟨by norm_num, by norm_num,
   (moveToWait_profile 2048 0 2400 50 (by norm_num) (by norm_num)).2 (by norm_num)⟩

/-- C7: in `tareServo`, for detected limit positions in the 0–4095 position
range, the half-range distance is `(max − min) / 2` when `max > min` and
`(4095 − min + max) / 2` otherwise (wraparound), and the corrective offset is
the raw `min` when `min ≤ 4095 / 2` and `min − 4095 − 1` otherwise, in integer
arithmetic. -/
theorem tareServo_distance_correction (min_pos max_pos : Nat)
    (hmin : min_pos ≤ MAX_POSITION) (hmax : max_pos ≤ MAX_POSITION) :
    tareDistance min_pos max_pos =
      (if min_pos < max_pos then ((max_pos : Int) - (min_pos : Int)) / 2
       else ((MAX_POSITION : Int) - (min_pos : Int) + (max_pos : Int)) / 2) ∧
    tareCorr min_pos =
      (if min_pos ≤ MAX_POSITION / 2 then (min_pos : Int)
       else (min_pos : Int) - (MAX_POSITION : Int) - 1) := by
  unfold tareDistance tareCorr MAX_POSITION at *
  constructor
  · by_cases h : max_pos ≤ min_pos
    · rw [if_pos h, if_neg (by omega), Int.tdiv_eq_ediv (by omega) (by omega)]
    · rw [if_neg h, if_pos (by omega), Int.tdiv_eq_ediv (by omega) (by omega)]
  · split_ifs with h1 h2 h2 <;> omega

/-- Closed instance of `tareServo_distance_correction` at `min = 3000`,
`max = 1000` (the wraparound case). -/
theorem tareServo_distance_correction_witness :
    tareDistance 3000 1000 =
      (if (3000 : Nat) < 1000 then ((1000 : Int) - (3000 : Int)) / 2
       else ((MAX_POSITION : Int) - (3000 : Int) + (1000 : Int)) / 2) ∧
    tareCorr 3000 =
      (if (3000 : Nat) ≤ MAX_POSITION / 2 then (3000 : Int)
       else (3000 : Int) - (MAX_POSITION : Int) - 1) :=
  tareServo_distance_correction 3000 1000 (by decide) (by decide)

/-- C8: `GroupSyncWrite::addParam` with an address already stored, or with a
payload longer than the configured per-device data length, returns `false`
and leaves the whole session state (map and payloads) unchanged. -/
theorem addParam_reject (g : GroupSyncWrite) (sts_id : Nat) (data : List Nat)
    (h : containsKey g.data_dict sts_id = true ∨ g.data_length < data.length) :
    addParam g sts_id data = (false, g) := by
  unfold addParam
  rcases h with h | h
  · rw [if_pos h]
  · by_cases hc : containsKey g.data_dict sts_id = true
    · rw [if_pos hc]
    · rw [if_neg hc, if_pos h]

/-- Closed instance of `addParam_reject`: duplicate address 5. -/
theorem addParam_reject_witness :
    addParam ⟨42, 2, false, [], [(5, [1, 2])]⟩ 5 [9] =
      (false, ⟨42, 2, false, [], [(5, [1, 2])]⟩) :=
  addParam_reject _ 5 [9] (Or.inl (by decide))

/-- C9: `correctPosition` and `rotate` never reject an input: the 16-bit
register value assembled from the two payload bytes carries magnitude
`min(|correction|, 2047)` with bit 11 set exactly when the correction is
negative, and magnitude `min(|speed|, 3400)` with bit 15 set exactly when the
speed is negative. -/
theorem correctPosition_rotate_encoding (c s : Int) :
    makeWord (correctPositionBytes c).1 (correctPositionBytes c).2
      = min c.natAbs MAX_CORRECTION + (if c < 0 then 2 ^ 11 else 0) ∧
    (makeWord (correctPositionBytes c).1 (correctPositionBytes c).2).testBit 11
      = decide (c < 0) ∧
    makeWord (rotateBytes s).1 (rotateBytes s).2
      = min s.natAbs MAX_SPEED + (if s < 0 then 2 ^ 15 else 0) ∧
    (makeWord (rotateBytes s).1 (rotateBytes s).2).testBit 15 = decide (s < 0) := by
  have hmc : min c.natAbs MAX_CORRECTION ≤ 2047 := by
    unfold MAX_CORRECTION; exact min_le_right _ _
  have hms : min s.natAbs MAX_SPEED ≤ 3400 := by
    unfold MAX_SPEED; exact min_le_right _ _
  have hval1 : makeWord (correctPositionBytes c).1 (correctPositionBytes c).2
      = min c.natAbs MAX_CORRECTION + (if c < 0 then 2 ^ 11 else 0) := by
    unfold correctPositionBytes lobyte hibyte
    by_cases hc : c < 0
    · rw [if_pos hc, if_pos hc,
        Nat.mod_eq_of_lt (a := min c.natAbs MAX_CORRECTION / 256) (by omega),
        lor_eight_of_lt (by omega), makeWord_eq (by omega) (by omega)]
      omega
    · rw [if_neg hc, if_neg hc,
        Nat.mod_eq_of_lt (a := min c.natAbs MAX_CORRECTION / 256) (by omega),
        makeWord_eq (by omega) (by omega)]
      omega
  have hval2 : makeWord (rotateBytes s).1 (rotateBytes s).2
      = min s.natAbs MAX_SPEED + (if s < 0 then 2 ^ 15 else 0) := by
    unfold rotateBytes lobyte hibyte
    by_cases hs : s < 0
    · rw [if_pos hs, if_pos hs,
        Nat.mod_eq_of_lt (a := min s.natAbs MAX_SPEED / 256) (by omega),
        lor_on28_of_lt (by omega), makeWord_eq (by omega) (by omega)]
      omega
    · rw [if_neg hs, if_neg hs,
        Nat.mod_eq_of_lt (a := min s.natAbs MAX_SPEED / 256) (by omega),
        makeWord_eq (by omega) (by omega)]
      omega
  refine ⟨hval1, ?_, hval2, ?_⟩
  · rw [hval1, Nat.testBit_to_div_mod]
    by_cases hc : c < 0
    · rw [if_pos hc, decide_eq_true hc, decide_eq_true_eq]
      omega
    · rw [if_neg hc, decide_eq_false hc, decide_eq_false_iff_not]
      omega
  · rw [hval2, Nat.testBit_to_div_mod]
    by_cases hs : s < 0
    · rw [if_pos hs, decide_eq_true hs, decide_eq_true_eq]
      omega
    · rw [if_neg hs, decide_eq_false hs, decide_eq_false_iff_not]
      omega

/-- C10: `pingServo` answers `true` exactly when `ping`'s communication result
is success, the device error byte is 0, and the model number read back is
nonzero; in particular a model number of 0 is reported as absent even when
communication succeeded. -/
theorem pingServo_iff_ping (oFuel rxFuel : Nat) (port : Port) (sts_id : Nat)
    (model : Nat) (comm : Int) (error : Nat) (port2 : Port)
    (h : ping oFuel rxFuel port sts_id = some (model, comm, error, port2)) :
    pingServo oFuel rxFuel port sts_id = some true ↔
      (comm = COMM_SUCCESS ∧ error = 0 ∧ model ≠ 0) := by
  unfold pingServo
  rw [h]
  by_cases h1 : comm = COMM_SUCCESS <;> by_cases h2 : error = 0 <;>
    by_cases h3 : model = 0 <;> simp [h1, h2, h3]

/-- Closed instance of `pingServo_iff_ping`: a full simulated exchange in
which both transactions succeed and the model register reads 0, so
`pingServo` reports the device absent. -/
theorem pingServo_iff_ping_witness :
    pingServo 5 20 ⟨false, [255, 255, 1, 2, 0, 252, 255, 255, 1, 4, 0, 0, 0, 250], [], []⟩ 1
        = some true ↔
      (COMM_SUCCESS = COMM_SUCCESS ∧ (0 : Nat) = 0 ∧ (0 : Nat) ≠ 0) :=
  pingServo_iff_ping 5 20 _ 1 0 COMM_SUCCESS 0
    ⟨false, [], [],
     [255, 255, 1, 2, 1, 251, 255, 255, 1, 4, 2, 3, 2, 243]⟩ (by decide)

end ST3215
